import Mathlib

/-!
# Verification of the AST-to-text emission engine (`src/tr/core.py`)

A shallow embedding of the Python-to-target code translator
(`PythonToTargetTranslator` and `CodeTranslator` in `src/tr/core.py`),
followed by theorems settling the specification claims about it.

The source consumes Python `ast` nodes; here the closed node set the engine
dispatches on is modelled as mutual inductive types, and each `translate_*`
method becomes a Lean function of the same name.  The translator object's
mutable fields (`indent_level`, `variables`) become an explicit state record
threaded through the statement-level functions; `target_lang` is a plain
`String` parameter, as in the source, where any string is accepted and
unrecognized ones fall through to the `else` branches.
-/

namespace Tr

/-- Binary operators of the origin AST (`ast.Add`, `ast.Sub`, …).  The
constructors past `floorDiv` are the operator classes the source's
`translate_operator` has no `isinstance` arm for. -/
inductive BOp where
  | add | sub | mult | div | mod | pow | floorDiv
  | matMult | lshift | rshift | bitOr | bitXor | bitAnd
deriving DecidableEq, Repr

/-- Comparison operators (`ast.Eq`, …).  `isOp`, `isNotOp`, `inOp`, `notInOp`
are the ones the source's `translate_compare_op` has no arm for. -/
inductive CmpOp where
  | eq | ne | lt | le | gt | ge
  | isOp | isNotOp | inOp | notInOp
deriving DecidableEq, Repr

/-- Unary operators (`ast.Not`, `ast.UAdd`, `ast.USub`, and `ast.Invert`
which falls to the `else` branch of `translate_unaryop`). -/
inductive UOp where
  | notOp | uadd | usub | invert
deriving DecidableEq, Repr

/-- Boolean connectives of `ast.BoolOp`. -/
inductive BoolKind where
  | andOp | orOp
deriving DecidableEq, Repr

/-- Constant payloads of `ast.Constant` as far as the engine inspects them:
`None`, booleans, strings, integers. -/
inductive Const where
  | noneV
  | boolV (b : Bool)
  | strV (s : String)
  | intV (n : Int)
deriving DecidableEq, Repr

mutual
/-- Expression nodes of the engine's closed node set.  `unknown` stands for
any `ast` expression class outside the `isinstance` chain of
`translate_expr` (e.g. `ast.Lambda`, `ast.Slice`), which reaches its
`else` branch. -/
inductive Expr where
  | constant (c : Const)
  | name (id : String)
  | call (func : Expr) (args : ExprList)
  | binop (left : Expr) (op : BOp) (right : Expr)
  | compare (left : Expr) (rest : CmpList)
  | attribute (value : Expr) (attr : String)
  | subscript (value : Expr) (index : Expr)
  | listLit (elts : ExprList)
  | dictLit (pairs : PairList)
  | tupleLit (elts : ExprList)
  | unaryOp (op : UOp) (operand : Expr)
  | boolOp (op : BoolKind) (values : ExprList)
  | ifExp (test : Expr) (body : Expr) (orelse : Expr)
  | unknown

/-- A list of expressions (call arguments, list/tuple elements, boolop values). -/
inductive ExprList where
  | nil
  | cons (e : Expr) (rest : ExprList)

/-- The `zip(compare.ops, compare.comparators)` tail of an `ast.Compare`. -/
inductive CmpList where
  | nil
  | cons (op : CmpOp) (e : Expr) (rest : CmpList)

/-- The `zip(dct.keys, dct.values)` pairs of an `ast.Dict`. -/
inductive PairList where
  | nil
  | cons (k : Expr) (v : Expr) (rest : PairList)
end

/-! ### Python string primitives

The emitter relies on Python's `str.strip`, `str.split('\n')`,
`str.startswith`, `str.replace` and `str.lower`.  They are modelled here by
structurally recursive functions over the character list of a `String`, so
that closed emissions evaluate inside the kernel. -/

/-- The default character class of Python's `str.strip()`. -/
def isPyWhitespace (c : Char) : Bool :=
  c = ' ' ∨ c = '\t' ∨ c = '\n' ∨ c = '\r' ∨ c = '\x0b' ∨ c = '\x0c'

/-- Drop leading Python whitespace from a character list. -/
def dropLeadingWs : List Char → List Char
  | [] => []
  | c :: cs => if isPyWhitespace c then dropLeadingWs cs else c :: cs

/-- Python `s.strip()`. -/
def pyStrip (s : String) : String :=
  ⟨(dropLeadingWs (dropLeadingWs s.data.reverse).reverse)⟩

/-- Split a character list at every occurrence of `sep` (Python
`s.split(sep)` for a one-character separator; the result is never empty). -/
def splitOnChar (sep : Char) : List Char → List (List Char)
  | [] => [[]]
  | c :: cs =>
      match splitOnChar sep cs with
      | [] => [[c]]
      | h :: t => if c = sep then [] :: h :: t else (c :: h) :: t

/-- Python `s.split('\n')`. -/
def pySplitLines (s : String) : List String :=
  (splitOnChar '\n' s.data).map (fun l => ⟨l⟩)

/-- Python `s.startswith(p)` on character lists. -/
def startsWithAux : List Char → List Char → Bool
  | _, [] => true
  | [], _ :: _ => false
  | c :: cs, p :: ps => c = p ∧ startsWithAux cs ps

/-- Python `s.startswith(p)`. -/
def pyStartsWith (s p : String) : Bool :=
  startsWithAux s.data p.data

/-- The escaping of `translate_constant` (src/tr/core.py:374):
`value.replace('\\', '\\\\').replace('"', '\\"')`.  Both replaced patterns
are single characters, and the backslashes introduced by the first pass are
never quotes, so the two sequential passes equal this one pass. -/
def escapeChars : List Char → List Char
  | [] => []
  | c :: cs =>
      (if c = '\\' then ['\\', '\\'] else if c = '"' then ['\\', '"'] else [c])
        ++ escapeChars cs

/-- Python `s.lower()` restricted to ASCII, which is all the catalog uses. -/
def pyLower (s : String) : String :=
  ⟨s.data.map Char.toLower⟩

/-- `translate_constant` (src/tr/core.py:366): literal spellings. -/
def translate_constant : Const → String
  | .noneV => "null"
  | .boolV true => "true"
  | .boolV false => "false"
  | .strV s => "\"" ++ String.mk (escapeChars s.data) ++ "\""
  | .intV n => toString n

/-- `translate_constant_name` (src/tr/core.py:379). -/
def translate_constant_name (name : String) : String :=
  if name = "True" then "true"
  else if name = "False" then "false"
  else if name = "None" then "null"
  else name

/-- `translate_operator` (src/tr/core.py:527): binary-operator spelling;
unrecognized operator classes fall to the final `else` returning `"+"`. -/
def translate_operator (lang : String) : BOp → String
  | .add => if lang = "php" then "." else "+"
  | .sub => "-"
  | .mult => "*"
  | .div => "/"
  | .mod => "%"
  | .pow => if lang = "php" then "**" else "**"
  | .floorDiv => "//"
  | _ => "+"

/-- `translate_compare_op` (src/tr/core.py:560): comparison spelling; the
unrecognized operator classes fall to the final `else` returning `"=="`. -/
def translate_compare_op (lang : String) : CmpOp → String
  | .eq => if lang = "javascript" ∨ lang = "typescript" ∨ lang = "php" then "===" else "=="
  | .ne => if lang = "javascript" ∨ lang = "typescript" ∨ lang = "php" then "!==" else "!="
  | .lt => "<"
  | .le => "<="
  | .gt => ">"
  | .ge => ">="
  | _ => "=="

/-- Whether an expression node is a string-typed literal
(`isinstance(e, ast.Constant) and isinstance(e.value, str)`). -/
def isStrLiteral : Expr → Bool
  | .constant (.strV _) => true
  | _ => false

/-- The `print` builtin rewrite inside `translate_call` (src/tr/core.py:401). -/
def printCall (lang : String) (argsJ : String) : String :=
  if lang = "javascript" then "console.log(" ++ argsJ ++ ")"
  else if lang = "typescript" then "console.log(" ++ argsJ ++ ")"
  else if lang = "java" then "System.out.println(" ++ argsJ ++ ")"
  else if lang = "c" ∨ lang = "cpp" then "std::cout << " ++ argsJ ++ " << std::endl"
  else if lang = "csharp" then "Console.WriteLine(" ++ argsJ ++ ")"
  else if lang = "go" then "fmt.Println(" ++ argsJ ++ ")"
  else if lang = "rust" then "println!(\"\x7b\x7d\", " ++ argsJ ++ ")"
  else if lang = "php" then "echo " ++ argsJ
  else if lang = "ruby" then "puts " ++ argsJ
  else if lang = "swift" then "print(" ++ argsJ ++ ")"
  else if lang = "kotlin" then "println(" ++ argsJ ++ ")"
  else if lang = "perl" then "print " ++ argsJ
  else if lang = "lua" then "print(" ++ argsJ ++ ")"
  else if lang = "dart" then "print(" ++ argsJ ++ ")"
  else if lang = "scala" then "println(" ++ argsJ ++ ")"
  else "print(" ++ argsJ ++ ")"

/-- The `len` builtin rewrite inside `translate_call` (src/tr/core.py:435). -/
def lenCall (lang : String) (argsJ : String) : String :=
  if lang = "javascript" ∨ lang = "typescript" then argsJ ++ ".length"
  else if lang = "java" then argsJ ++ ".length"
  else if lang = "c" ∨ lang = "cpp" then argsJ ++ ".size()"
  else if lang = "csharp" then argsJ ++ ".Length"
  else if lang = "go" then "len(" ++ argsJ ++ ")"
  else if lang = "rust" then argsJ ++ ".len()"
  else if lang = "php" then "count(" ++ argsJ ++ ")"
  else if lang = "ruby" then argsJ ++ ".length"
  else if lang = "swift" then argsJ ++ ".count"
  else if lang = "kotlin" then argsJ ++ ".size"
  else "len(" ++ argsJ ++ ")"

/-- The `str` builtin rewrite inside `translate_call` (src/tr/core.py:459). -/
def strCall (lang : String) (argsJ : String) : String :=
  if lang = "javascript" ∨ lang = "typescript" then "String(" ++ argsJ ++ ")"
  else if lang = "java" then "String.valueOf(" ++ argsJ ++ ")"
  else if lang = "c" ∨ lang = "cpp" then "std::to_string(" ++ argsJ ++ ")"
  else if lang = "csharp" then argsJ ++ ".ToString()"
  else if lang = "go" then "fmt.Sprint(" ++ argsJ ++ ")"
  else if lang = "rust" then argsJ ++ ".to_string()"
  else if lang = "php" then "strval(" ++ argsJ ++ ")"
  else if lang = "ruby" then argsJ ++ ".to_s"
  else if lang = "swift" then "String(" ++ argsJ ++ ")"
  else if lang = "kotlin" then argsJ ++ ".toString()"
  else "String(" ++ argsJ ++ ")"

mutual
/-- `translate_expr` (src/tr/core.py:329) at the default
`is_assignment_target=False` (the value every recursive call in the source
passes).  Pure in the source: it reads only `self.target_lang`.  The final
`else` emits the fixed placeholder `"mero_expr"`.  The bodies of the helper
methods `translate_call`, `translate_binop`, `translate_compare`,
`translate_attribute`, `translate_subscript`, `translate_list`,
`translate_dict`, `translate_tuple`, `translate_unaryop`,
`translate_boolop`, `translate_ifexp` are inlined in the corresponding
match arms. -/
def translate_expr (lang : String) : Expr → String
  | .constant c => translate_constant c
  | .name id =>
      if id = "True" ∨ id = "False" ∨ id = "None" then translate_constant_name id
      else if lang = "php" then "$" ++ id
      else id
  -- translate_call (src/tr/core.py:388): `func_name` comes from the raw
  -- identifier for a Name callee, from translate_attribute for an Attribute
  -- callee (same text as translate_expr on it), else from translate_expr.
  | .call f args =>
      let func_name :=
        match f with
        | .name id => id
        | _ => translate_expr lang f
      let argsJ := String.intercalate ", " (translate_expr_list lang args)
      if func_name = "print" then printCall lang argsJ
      else if func_name = "len" then lenCall lang argsJ
      else if func_name = "str" then strCall lang argsJ
      else if func_name = "range" then
        if lang = "javascript" ∨ lang = "typescript" then
          match args with
          | .cons a _ =>
              "Array.from(\x7blength: " ++ translate_expr lang a ++ "\x7d, (_, i) => i)"
          | .nil => "[]"
        else if lang = "php" then
          match args with
          | .cons a _ => "range(0, " ++ translate_expr lang a ++ " - 1)"
          | .nil => "[]"
        else if lang = "ruby" then
          match args with
          | .cons a _ => "(0..." ++ translate_expr lang a ++ ")"
          | .nil => "(0...0)"
        else "range(" ++ argsJ ++ ")"
      else func_name ++ "(" ++ argsJ ++ ")"
  -- translate_binop (src/tr/core.py:507): string concatenation is detected
  -- only when the operator is Add and at least one side is a string literal.
  | .binop l op r =>
      let left := translate_expr lang l
      let right := translate_expr lang r
      let is_string_concat := op = BOp.add ∧ (isStrLiteral l ∨ isStrLiteral r)
      if is_string_concat ∧ op = BOp.add then
        if lang = "php" then left ++ " . " ++ right else left ++ " + " ++ right
      else left ++ " " ++ translate_operator lang op ++ " " ++ right
  -- translate_compare (src/tr/core.py:549)
  | .compare l rest =>
      String.intercalate " " (translate_expr lang l :: translate_cmp_parts lang rest)
  -- translate_attribute (src/tr/core.py:580)
  | .attribute v a =>
      let value := translate_expr lang v
      if lang = "php" ∧ value = "self" then "$this->" ++ a
      else if value = "self" then
        if lang = "javascript" ∨ lang = "typescript" ∨ lang = "java" ∨ lang = "csharp"
            ∨ lang = "kotlin" ∨ lang = "dart" ∨ lang = "scala" then
          "this." ++ a
        else "self." ++ a
      else value ++ "." ++ a
  -- translate_subscript (src/tr/core.py:591)
  | .subscript v i => translate_expr lang v ++ "[" ++ translate_expr lang i ++ "]"
  -- translate_list (src/tr/core.py:596)
  | .listLit elts =>
      let elements := String.intercalate ", " (translate_expr_list lang elts)
      if lang = "php" then "array(" ++ elements ++ ")" else "[" ++ elements ++ "]"
  -- translate_dict (src/tr/core.py:602)
  | .dictLit pairs =>
      let ps := translate_dict_pairs lang pairs
      if lang = "php" then "array(" ++ String.intercalate ", " ps ++ ")"
      else "\x7b" ++ String.intercalate ", " ps ++ "\x7d"
  -- translate_tuple (src/tr/core.py:616)
  | .tupleLit elts =>
      let elements := String.intercalate ", " (translate_expr_list lang elts)
      if lang = "php" then "array(" ++ elements ++ ")"
      else if lang = "javascript" ∨ lang = "typescript" then "[" ++ elements ++ "]"
      else "(" ++ elements ++ ")"
  -- translate_unaryop (src/tr/core.py:624): ast.Invert reaches the else and
  -- yields the bare operand.
  | .unaryOp op e =>
      let operand := translate_expr lang e
      match op with
      | .notOp => "!" ++ operand
      | .uadd => "+" ++ operand
      | .usub => "-" ++ operand
      | .invert => operand
  -- translate_boolop (src/tr/core.py:635)
  | .boolOp op vs =>
      let values := translate_expr_list lang vs
      match op with
      | .andOp => String.intercalate " && " values
      | .orOp => String.intercalate " || " values
  -- translate_ifexp (src/tr/core.py:644)
  | .ifExp t b o =>
      translate_expr lang t ++ " ? " ++ translate_expr lang b ++ " : " ++ translate_expr lang o
  | .unknown => "mero_expr"

/-- Elementwise `translate_expr` over an expression list (the source's list
comprehensions `[self.translate_expr(x) for x in …]`). -/
def translate_expr_list (lang : String) : ExprList → List String
  | .nil => []
  | .cons e rest => translate_expr lang e :: translate_expr_list lang rest

/-- The `<op> <comparator>` parts of `translate_compare` (src/tr/core.py:553). -/
def translate_cmp_parts (lang : String) : CmpList → List String
  | .nil => []
  | .cons op e rest =>
      (translate_compare_op lang op ++ " " ++ translate_expr lang e)
        :: translate_cmp_parts lang rest

/-- The key/value pair texts of `translate_dict` (src/tr/core.py:604). -/
def translate_dict_pairs (lang : String) : PairList → List String
  | .nil => []
  | .cons k v rest =>
      (if lang = "php" then
        translate_expr lang k ++ " => " ++ translate_expr lang v
      else
        translate_expr lang k ++ ": " ++ translate_expr lang v)
        :: translate_dict_pairs lang rest
end

/-- `translate_expr` with `is_assignment_target=True` (used by
`translate_assignment` on the target and by `translate_for` on the loop
variable).  The flag is consulted only in the `ast.Name` branch, where it
suppresses the php `$` prefix; every recursive call inside the source passes
the default `False`, i.e. plain `translate_expr`. -/
def translate_expr_target (lang : String) : Expr → String
  | .name id =>
      if id = "True" ∨ id = "False" ∨ id = "None" then translate_constant_name id
      else id
  | e => translate_expr lang e

example : translate_expr "php" (.binop (.constant (.intV 1)) .add (.constant (.intV 2))) = "1 . 2" := by decide
example : translate_expr "javascript" (.binop (.constant (.intV 1)) .add (.constant (.intV 2))) = "1 + 2" := rfl
example : translate_expr "go" .unknown = "mero_expr" := rfl
example : translate_expr "java" (.call (.name "print") (.cons (.name "x") .nil)) = "System.out.println(x)" := rfl
example : translate_expr "ruby" (.call (.name "range") (.cons (.constant (.intV 5)) .nil)) = "(0...5)" := rfl
example : translate_expr "php" (.attribute (.name "self") "x") = "$self.x" := rfl
example : translate_expr "javascript" (.attribute (.name "self") "x") = "this.x" := rfl

/-! ## Statement nodes and the statement emitter -/

mutual
/-- Statement nodes of the engine's closed node set, as dispatched by
`translate_statement` (src/tr/core.py:43).  `classDef` omits `bases`
because `translate_class` never reads `cls.bases`; `functionDef` keeps the
parameter names of `func.args.args`. -/
inductive Stmt where
  | functionDef (name : String) (params : List String) (body : StmtList)
  | classDef (name : String) (body : StmtList)
  | assign (target : Expr) (value : Expr)
  | augAssign (target : Expr) (op : BOp) (value : Expr)
  | ifStmt (test : Expr) (body : StmtList) (orelse : StmtList)
  | forStmt (target : Expr) (iter : Expr) (body : StmtList)
  | whileStmt (test : Expr) (body : StmtList)
  | ret (value : Option Expr)
  | exprStmt (e : Expr)
  | importStmt
  | importFrom
  | passStmt
  | breakStmt
  | continueStmt

/-- A statement sequence (a `body` list of the origin AST). -/
inductive StmtList where
  | nil
  | cons (s : Stmt) (rest : StmtList)
end

/-- The translator object's mutable fields: `self.indent_level` and
`self.variables` (src/tr/core.py:9-11). -/
structure St where
  ind : Nat
  vars : List String
deriving DecidableEq, Repr

/-- The state of a freshly constructed `PythonToTargetTranslator`. -/
def initSt : St := ⟨0, []⟩

/-- `get_indent` (src/tr/core.py:650): `'    ' * self.indent_level`. -/
def get_indent (n : Nat) : String :=
  String.join (List.replicate n "    ")

/-- The tail of `translate_body` (src/tr/core.py:324): if no line survived
filtering, return one indentation-only line, else join with newlines. -/
def joinBody (lines : List String) (ind : Nat) : String :=
  if lines = [] then get_indent ind ++ "    " else String.intercalate "\n" lines

/-- `translate_parameters` (src/tr/core.py:305): drop `self`, `$`-prefix for
php and perl. -/
def translate_parameters (lang : String) (args : List String) : String :=
  String.intercalate ", "
    (args.filterMap (fun a =>
      if a = "self" then none
      else some (if lang = "php" ∨ lang = "perl" then "$" ++ a else a)))

/-- `result.rsplit('\n', 1)[0]` in `translate_if` (src/tr/core.py:226):
everything before the last newline (the whole string when there is none). -/
def dropLastLine (s : String) : String :=
  let parts := pySplitLines s
  if parts.length ≤ 1 then s else String.intercalate "\n" parts.dropLast

/-- The block-style language list of `translate_if` (src/tr/core.py:214). -/
def ifBraceLangs : List String :=
  ["javascript", "typescript", "java", "c", "cpp", "csharp", "php", "go", "rust",
   "swift", "kotlin", "dart", "scala", "perl"]

mutual
/-- `translate_statement` (src/tr/core.py:43) with the bodies of the
per-construct methods (`translate_function`, `translate_class`,
`translate_assignment`, `translate_aug_assignment`, `translate_if`,
`translate_for`, `translate_while`, `translate_return`,
`translate_expression_stmt`, `translate_pass`) inlined into the dispatch
arms.  The source mutates `self.indent_level` and `self.variables`; here
the pair is threaded as `St`, and each arm returns `(text, state)` exactly
as the method leaves the object. -/
def translate_statement (lang : String) : Stmt → St → String × St
  -- translate_function (src/tr/core.py:75)
  | .functionDef n ps body => fun st =>
      let func_name :=
        if n = "__init__" then
          if lang = "php" then "__construct"
          else if lang = "javascript" ∨ lang = "typescript" then "constructor"
          else n
        else n
      let params := translate_parameters lang ps
      let r := translate_body_lines lang body {st with ind := st.ind + 1}
      let bodyStr := joinBody r.1 r.2.ind
      let st2 : St := {r.2 with ind := r.2.ind - 1}
      let body2 :=
        if pyStrip bodyStr = "" then
          get_indent st2.ind ++ "    "
            ++ (if lang = "python" ∨ lang = "ruby" then "pass" else "mero_empty")
        else bodyStr
      let ind := get_indent st2.ind
      (if lang = "javascript" then
        ind ++ "function " ++ func_name ++ "(" ++ params ++ ") \x7b\n" ++ body2 ++ "\n" ++ ind ++ "\x7d"
      else if lang = "typescript" then
        ind ++ "function " ++ func_name ++ "(" ++ params ++ ") \x7b\n" ++ body2 ++ "\n" ++ ind ++ "\x7d"
      else if lang = "java" then
        ind ++ "public static void " ++ func_name ++ "(" ++ params ++ ") \x7b\n" ++ body2 ++ "\n" ++ ind ++ "\x7d"
      else if lang = "c" ∨ lang = "cpp" then
        ind ++ "void " ++ func_name ++ "(" ++ params ++ ") \x7b\n" ++ body2 ++ "\n" ++ ind ++ "\x7d"
      else if lang = "csharp" then
        ind ++ "public static void " ++ func_name ++ "(" ++ params ++ ") \x7b\n" ++ body2 ++ "\n" ++ ind ++ "\x7d"
      else if lang = "go" then
        ind ++ "func " ++ func_name ++ "(" ++ params ++ ") \x7b\n" ++ body2 ++ "\n" ++ ind ++ "\x7d"
      else if lang = "rust" then
        ind ++ "fn " ++ func_name ++ "(" ++ params ++ ") \x7b\n" ++ body2 ++ "\n" ++ ind ++ "\x7d"
      else if lang = "php" then
        ind ++ "function " ++ func_name ++ "(" ++ params ++ ") \x7b\n" ++ body2 ++ "\n" ++ ind ++ "\x7d"
      else if lang = "ruby" then
        ind ++ "def " ++ func_name ++ "(" ++ params ++ ")\n" ++ body2 ++ "\n" ++ ind ++ "end"
      else if lang = "swift" then
        ind ++ "func " ++ func_name ++ "(" ++ params ++ ") \x7b\n" ++ body2 ++ "\n" ++ ind ++ "\x7d"
      else if lang = "kotlin" then
        ind ++ "fun " ++ func_name ++ "(" ++ params ++ ") \x7b\n" ++ body2 ++ "\n" ++ ind ++ "\x7d"
      else if lang = "perl" then
        ind ++ "sub " ++ func_name ++ " \x7b\n" ++ ind ++ "    my (" ++ params ++ ") = @_;\n" ++ body2 ++ "\n" ++ ind ++ "\x7d"
      else if lang = "lua" then
        ind ++ "function " ++ func_name ++ "(" ++ params ++ ")\n" ++ body2 ++ "\n" ++ ind ++ "end"
      else if lang = "dart" then
        ind ++ func_name ++ "(" ++ params ++ ") \x7b\n" ++ body2 ++ "\n" ++ ind ++ "\x7d"
      else if lang = "scala" then
        ind ++ "def " ++ func_name ++ "(" ++ params ++ ") = \x7b\n" ++ body2 ++ "\n" ++ ind ++ "\x7d"
      else
        ind ++ "function " ++ func_name ++ "(" ++ params ++ ") \x7b\n" ++ body2 ++ "\n" ++ ind ++ "\x7d",
      st2)
  -- translate_class (src/tr/core.py:128): no empty-body fixup here, the raw
  -- translate_body result is spliced in.
  | .classDef n body => fun st =>
      let r := translate_body_lines lang body {st with ind := st.ind + 1}
      let bodyStr := joinBody r.1 r.2.ind
      let st2 : St := {r.2 with ind := r.2.ind - 1}
      let ind := get_indent st2.ind
      (if lang = "javascript" ∨ lang = "typescript" then
        ind ++ "class " ++ n ++ " \x7b\n" ++ bodyStr ++ "\n" ++ ind ++ "\x7d"
      else if lang = "java" then
        ind ++ "public class " ++ n ++ " \x7b\n" ++ bodyStr ++ "\n" ++ ind ++ "\x7d"
      else if lang = "c" ∨ lang = "cpp" then
        ind ++ "class " ++ n ++ " \x7b\npublic:\n" ++ bodyStr ++ "\n" ++ ind ++ "\x7d;"
      else if lang = "csharp" then
        ind ++ "public class " ++ n ++ " \x7b\n" ++ bodyStr ++ "\n" ++ ind ++ "\x7d"
      else if lang = "php" then
        ind ++ "class " ++ n ++ " \x7b\n" ++ bodyStr ++ "\n" ++ ind ++ "\x7d"
      else if lang = "ruby" then
        ind ++ "class " ++ n ++ "\n" ++ bodyStr ++ "\n" ++ ind ++ "end"
      else if lang = "swift" then
        ind ++ "class " ++ n ++ " \x7b\n" ++ bodyStr ++ "\n" ++ ind ++ "\x7d"
      else if lang = "kotlin" then
        ind ++ "class " ++ n ++ " \x7b\n" ++ bodyStr ++ "\n" ++ ind ++ "\x7d"
      else if lang = "scala" then
        ind ++ "class " ++ n ++ " \x7b\n" ++ bodyStr ++ "\n" ++ ind ++ "\x7d"
      else
        ind ++ "class " ++ n ++ " \x7b\n" ++ bodyStr ++ "\n" ++ ind ++ "\x7d",
      st2)
  -- translate_assignment (src/tr/core.py:155): the declaration keyword is
  -- emitted unconditionally; `self.variables` is only ever added to.
  | .assign target value => fun st =>
      let t := translate_expr_target lang target
      let v := translate_expr lang value
      let st' : St :=
        match target with
        | .name id => if id ∈ st.vars then st else {st with vars := st.vars ++ [id]}
        | _ => st
      let ind := get_indent st.ind
      (if lang = "javascript" then ind ++ "let " ++ t ++ " = " ++ v ++ ";"
      else if lang = "typescript" then ind ++ "let " ++ t ++ " = " ++ v ++ ";"
      else if lang = "java" then ind ++ "var " ++ t ++ " = " ++ v ++ ";"
      else if lang = "c" ∨ lang = "cpp" then ind ++ "auto " ++ t ++ " = " ++ v ++ ";"
      else if lang = "csharp" then ind ++ "var " ++ t ++ " = " ++ v ++ ";"
      else if lang = "go" then ind ++ t ++ " := " ++ v
      else if lang = "rust" then ind ++ "let mut " ++ t ++ " = " ++ v ++ ";"
      else if lang = "php" then
        ind ++ (if ¬ pyStartsWith t "$" then "$" ++ t else t) ++ " = " ++ v ++ ";"
      else if lang = "ruby" then ind ++ t ++ " = " ++ v
      else if lang = "swift" then ind ++ "var " ++ t ++ " = " ++ v
      else if lang = "kotlin" then ind ++ "var " ++ t ++ " = " ++ v
      else if lang = "perl" then ind ++ "my $" ++ t ++ " = " ++ v ++ ";"
      else if lang = "lua" then ind ++ "local " ++ t ++ " = " ++ v
      else if lang = "dart" then ind ++ "var " ++ t ++ " = " ++ v ++ ";"
      else if lang = "scala" then ind ++ "val " ++ t ++ " = " ++ v
      else ind ++ t ++ " = " ++ v ++ ";",
      st')
  -- translate_aug_assignment (src/tr/core.py:196): note the target is
  -- translated with the default flag, so php names do get the `$` prefix.
  | .augAssign target op value => fun st =>
      let t := translate_expr lang target
      let v := translate_expr lang value
      let o := translate_operator lang op
      let ind := get_indent st.ind
      (if lang = "php" then
        ind ++ (if ¬ pyStartsWith t "$" then "$" ++ t else t) ++ " " ++ o ++ "= " ++ v ++ ";"
      else ind ++ t ++ " " ++ o ++ "= " ++ v ++ ";",
      st)
  -- translate_if (src/tr/core.py:207)
  | .ifStmt test body orelse => fun st =>
      let condition := translate_expr lang test
      let r := translate_body_lines lang body {st with ind := st.ind + 1}
      let if_body := joinBody r.1 r.2.ind
      let st2 : St := {r.2 with ind := r.2.ind - 1}
      let ind := get_indent st2.ind
      let result :=
        if lang ∈ ifBraceLangs then
          ind ++ "if (" ++ condition ++ ") \x7b\n" ++ if_body ++ "\n" ++ ind ++ "\x7d"
        else if lang = "ruby" ∨ lang = "lua" then
          ind ++ "if " ++ condition ++ " then\n" ++ if_body ++ "\n" ++ ind ++ "end"
        else
          ind ++ "if (" ++ condition ++ ") \x7b\n" ++ if_body ++ "\n" ++ ind ++ "\x7d"
      match orelse with
      | .nil => (result, st2)
      | _ =>
        let r2 := translate_body_lines lang orelse {st2 with ind := st2.ind + 1}
        let else_body := joinBody r2.1 r2.2.ind
        let st4 : St := {r2.2 with ind := r2.2.ind - 1}
        let ind4 := get_indent st4.ind
        (if lang = "ruby" ∨ lang = "lua" then
          dropLastLine result ++ "\n" ++ ind4 ++ "else\n" ++ else_body ++ "\n" ++ ind4 ++ "end"
        else
          result ++ " else \x7b\n" ++ else_body ++ "\n" ++ ind4 ++ "\x7d",
        st4)
  -- translate_for (src/tr/core.py:232)
  | .forStmt target iter body => fun st =>
      let var := translate_expr_target lang target
      let iterable := translate_expr lang iter
      let r := translate_body_lines lang body {st with ind := st.ind + 1}
      let bodyStr := joinBody r.1 r.2.ind
      let st2 : St := {r.2 with ind := r.2.ind - 1}
      let ind := get_indent st2.ind
      (if lang = "javascript" then
        ind ++ "for (let " ++ var ++ " of " ++ iterable ++ ") \x7b\n" ++ bodyStr ++ "\n" ++ ind ++ "\x7d"
      else if lang = "typescript" then
        ind ++ "for (let " ++ var ++ " of " ++ iterable ++ ") \x7b\n" ++ bodyStr ++ "\n" ++ ind ++ "\x7d"
      else if lang = "java" then
        ind ++ "for (var " ++ var ++ " : " ++ iterable ++ ") \x7b\n" ++ bodyStr ++ "\n" ++ ind ++ "\x7d"
      else if lang = "c" ∨ lang = "cpp" then
        ind ++ "for (auto " ++ var ++ " : " ++ iterable ++ ") \x7b\n" ++ bodyStr ++ "\n" ++ ind ++ "\x7d"
      else if lang = "csharp" then
        ind ++ "foreach (var " ++ var ++ " in " ++ iterable ++ ") \x7b\n" ++ bodyStr ++ "\n" ++ ind ++ "\x7d"
      else if lang = "go" then
        ind ++ "for _, " ++ var ++ " := range " ++ iterable ++ " \x7b\n" ++ bodyStr ++ "\n" ++ ind ++ "\x7d"
      else if lang = "rust" then
        ind ++ "for " ++ var ++ " in " ++ iterable ++ " \x7b\n" ++ bodyStr ++ "\n" ++ ind ++ "\x7d"
      else if lang = "php" then
        ind ++ "foreach (" ++ iterable ++ " as "
          ++ (if ¬ pyStartsWith var "$" then "$" ++ var else var) ++ ") \x7b\n" ++ bodyStr ++ "\n" ++ ind ++ "\x7d"
      else if lang = "ruby" then
        ind ++ iterable ++ ".each do |" ++ var ++ "|\n" ++ bodyStr ++ "\n" ++ ind ++ "end"
      else if lang = "swift" then
        ind ++ "for " ++ var ++ " in " ++ iterable ++ " \x7b\n" ++ bodyStr ++ "\n" ++ ind ++ "\x7d"
      else if lang = "kotlin" then
        ind ++ "for (" ++ var ++ " in " ++ iterable ++ ") \x7b\n" ++ bodyStr ++ "\n" ++ ind ++ "\x7d"
      else if lang = "perl" then
        ind ++ "foreach my $" ++ var ++ " (@\x7b" ++ iterable ++ "\x7d) \x7b\n" ++ bodyStr ++ "\n" ++ ind ++ "\x7d"
      else if lang = "lua" then
        ind ++ "for _, " ++ var ++ " in pairs(" ++ iterable ++ ") do\n" ++ bodyStr ++ "\n" ++ ind ++ "end"
      else if lang = "dart" then
        ind ++ "for (var " ++ var ++ " in " ++ iterable ++ ") \x7b\n" ++ bodyStr ++ "\n" ++ ind ++ "\x7d"
      else if lang = "scala" then
        ind ++ "for (" ++ var ++ " <- " ++ iterable ++ ") \x7b\n" ++ bodyStr ++ "\n" ++ ind ++ "\x7d"
      else
        ind ++ "for (" ++ var ++ " in " ++ iterable ++ ") \x7b\n" ++ bodyStr ++ "\n" ++ ind ++ "\x7d",
      st2)
  -- translate_while (src/tr/core.py:274)
  | .whileStmt test body => fun st =>
      let condition := translate_expr lang test
      let r := translate_body_lines lang body {st with ind := st.ind + 1}
      let bodyStr := joinBody r.1 r.2.ind
      let st2 : St := {r.2 with ind := r.2.ind - 1}
      let ind := get_indent st2.ind
      (if lang = "go" then
        ind ++ "for " ++ condition ++ " \x7b\n" ++ bodyStr ++ "\n" ++ ind ++ "\x7d"
      else if lang = "ruby" ∨ lang = "lua" then
        ind ++ "while " ++ condition ++ " do\n" ++ bodyStr ++ "\n" ++ ind ++ "end"
      else
        ind ++ "while (" ++ condition ++ ") \x7b\n" ++ bodyStr ++ "\n" ++ ind ++ "\x7d",
      st2)
  -- translate_return (src/tr/core.py:287): the value token is kept exactly
  -- when the translated value string is non-empty.
  | .ret value => fun st =>
      let v := match value with
        | some e => translate_expr lang e
        | none => ""
      (get_indent st.ind ++ "return" ++ (if v ≠ "" then " " ++ v else "") ++ ";", st)
  -- translate_expression_stmt (src/tr/core.py:291)
  | .exprStmt e => fun st =>
      let expr := translate_expr lang e
      (if lang = "ruby" ∨ lang = "lua" then get_indent st.ind ++ expr
      else get_indent st.ind ++ expr ++ ";", st)
  -- ast.Import / ast.ImportFrom return "" (src/tr/core.py:62-65)
  | .importStmt => fun st => ("", st)
  | .importFrom => fun st => ("", st)
  -- translate_pass (src/tr/core.py:297): empty for ruby, `pass` for python,
  -- a bare semicolon line otherwise.
  | .passStmt => fun st =>
      (if lang = "ruby" then ""
      else if lang = "python" then get_indent st.ind ++ "pass"
      else get_indent st.ind ++ ";", st)
  | .breakStmt => fun st => (get_indent st.ind ++ "break;", st)
  | .continueStmt => fun st => (get_indent st.ind ++ "continue;", st)

/-- The line-collecting loop of `translate_body` (src/tr/core.py:317):
keep a statement's text only when it is non-empty and not whitespace-only. -/
def translate_body_lines (lang : String) : StmtList → St → List String × St
  | .nil => fun st => ([], st)
  | .cons s rest => fun st =>
      let r := translate_statement lang s st
      let r2 := translate_body_lines lang rest r.2
      (if r.1 ≠ "" ∧ pyStrip r.1 ≠ "" then r.1 :: r2.1 else r2.1, r2.2)
end

/-- `translate_body` (src/tr/core.py:317) in full: filtered lines joined by
newlines, or one indentation-only line when nothing survived. -/
def translate_body (lang : String) (l : StmtList) (st : St) : String × St :=
  let r := translate_body_lines lang l st
  (joinBody r.1 r.2.ind, r.2)

/-! ## Program emitter: module traversal, wrappers, catalog resolution -/

/-- The statement loop of `translate_module` (src/tr/core.py:26): split
`ast.Import`/`ast.ImportFrom` statements from the rest (both translated, and
a result is kept only when non-empty — import statements always translate to
`""`, so the `imports` list stays empty in practice). -/
def translate_module_aux (lang : String) : StmtList → St → List String × List String × St
  | .nil => fun st => ([], [], st)
  | .cons s rest => fun st =>
      match s with
      | .importStmt =>
          let r := translate_statement lang .importStmt st
          let r2 := translate_module_aux lang rest r.2
          (if r.1 ≠ "" then r.1 :: r2.1 else r2.1, r2.2.1, r2.2.2)
      | .importFrom =>
          let r := translate_statement lang .importFrom st
          let r2 := translate_module_aux lang rest r.2
          (if r.1 ≠ "" then r.1 :: r2.1 else r2.1, r2.2.1, r2.2.2)
      | s' =>
          let r := translate_statement lang s' st
          let r2 := translate_module_aux lang rest r.2
          (r2.1, (if r.1 ≠ "" then r.1 :: r2.2.1 else r2.2.1), r2.2.2)

/-- `translate_module` (src/tr/core.py:21): imports first (never in php),
then the main statements joined by blank lines. -/
def translate_module (lang : String) (body : StmtList) (st : St) : String × St :=
  let r := translate_module_aux lang body st
  (if r.1 ≠ [] ∧ lang ≠ "php" then
    String.intercalate "\n" r.1 ++ "\n\n" ++ String.intercalate "\n\n" r.2.1
  else String.intercalate "\n\n" r.2.1, r.2.2)

/-- `indent_code` (src/tr/core.py:681): prefix non-blank lines, blank lines
become empty. -/
def indent_code (code : String) (level : Nat) : String :=
  String.intercalate "\n"
    ((pySplitLines code).map (fun line =>
      if pyStrip line ≠ "" then get_indent level ++ line else ""))

/-- The line classifier of the java wrapper (src/tr/core.py:661): a line
whose stripped form starts with a function/class header becomes a class
member. -/
def isJavaMember (l : String) : Bool :=
  pyStartsWith (pyStrip l) "public static void" ∨ pyStartsWith (pyStrip l) "public class"
    ∨ pyStartsWith (pyStrip l) "class "

/-- The `elif` of the java wrapper (src/tr/core.py:663): any other
non-blank line not starting with a brace goes into the synthesized `main`. -/
def isJavaMain (l : String) : Bool :=
  ¬ isJavaMember l ∧ pyStrip l ≠ "" ∧ ¬ pyStartsWith (pyStrip l) "\x7d"
    ∧ ¬ pyStartsWith (pyStrip l) "\x7b"

/-- The java branch of `add_language_wrappers` (src/tr/core.py:654-669):
line-by-line partition of the already-emitted text into class members and
`main` statements. -/
def java_wrap (code : String) : String :=
  let lines := pySplitLines (pyStrip code)
  let class_body := String.intercalate "\n" (lines.filter isJavaMember)
  let main_body :=
    String.intercalate "\n" ((lines.filter isJavaMain).map (fun l => "        " ++ pyStrip l))
  "public class MeroTranslated \x7b\n" ++ class_body
    ++ "\n\n    public static void main(String[] args) \x7b\n" ++ main_body ++ "\n    \x7d\n\x7d"

/-- `add_language_wrappers` (src/tr/core.py:653). -/
def add_language_wrappers (lang : String) (code : String) : String :=
  if lang = "java" then java_wrap code
  else if lang = "c" ∨ lang = "cpp" then
    "#include <iostream>\nusing namespace std;\n\n" ++ code
  else if lang = "go" then
    "package main\nimport \"fmt\"\n\nfunc main() \x7b\n" ++ indent_code code 1 ++ "\n\x7d"
  else if lang = "php" then "<?php\n" ++ code ++ "\n?>"
  else if lang = "rust" then "fn main() \x7b\n" ++ indent_code code 1 ++ "\n\x7d"
  else code

/-- `PythonToTargetTranslator.translate` (src/tr/core.py:13) on an
already-parsed tree: module translation followed by the wrapper pass.
(`ast.parse` and the `SyntaxError` fallback are the external parser's
concern; the engine proper receives a valid tree.)  The translator instance
state is taken and returned explicitly, so consecutive calls on one
instance compose by feeding the returned state back in. -/
def translate (lang : String) (tree : StmtList) (st : St) : String × St :=
  let r := translate_module lang tree st
  (add_language_wrappers lang r.1, r.2)

/-- The display-name catalog `lang_map` of `CodeTranslator.smart_translate`
(src/tr/core.py:694), with the `.lower()` default for identifiers outside
the map. -/
def lang_map_get (s : String) : String :=
  if s = "Python" then "python" else if s = "Java" then "java"
  else if s = "C" then "c" else if s = "C++" then "cpp"
  else if s = "C#" then "csharp" else if s = "JavaScript" then "javascript"
  else if s = "TypeScript" then "typescript" else if s = "Go" then "go"
  else if s = "Rust" then "rust" else if s = "Ruby" then "ruby"
  else if s = "PHP" then "php" else if s = "Swift" then "swift"
  else if s = "Kotlin" then "kotlin" else if s = "Perl" then "perl"
  else if s = "Lua" then "lua" else if s = "Dart" then "dart"
  else if s = "Scala" then "scala" else pyLower s

/-- `CodeTranslator.smart_translate` (src/tr/core.py:693).  `code` is the
raw source text and `tree` its parse (produced externally).  A Python
source is translated by a fresh `PythonToTargetTranslator` — whose
constructor lowercases the target once more — and any other source language
is returned verbatim.  No branch validates the target identifier. -/
def smart_translate (code : String) (tree : StmtList) (from_lang to_lang : String) : String :=
  let from_key := lang_map_get from_lang
  let to_key := lang_map_get to_lang
  if from_key = "python" then (translate (pyLower to_key) tree initSt).1
  else code

example :
    (translate_statement "javascript" (.assign (.name "x") (.constant (.intV 5))) initSt).1
      = "let x = 5;" := rfl
example :
    (translate_statement "javascript" (.assign (.name "x") (.constant (.intV 5))) initSt).2
      = ⟨0, ["x"]⟩ := rfl
example :
    (translate_statement "java"
      (.functionDef "f" [] (.cons .passStmt .nil)) initSt).1
      = "public static void f() \x7b\n    ;\n\x7d" := rfl
example :
    (translate_statement "ruby"
      (.ifStmt (.name "x") (.cons .passStmt .nil) (.cons .breakStmt .nil)) initSt).1
      = "if x then\n        \nelse\n    break;\nend" := by decide
example :
    (translate "java" (.cons (.functionDef "f" [] (.cons .passStmt .nil)) .nil) initSt).1
      = "public class MeroTranslated \x7b\npublic static void f() \x7b\n\n    public static void main(String[] args) \x7b\n        ;\n    \x7d\n\x7d" := by decide
example :
    smart_translate "x = 1" (.cons (.assign (.name "x") (.constant (.intV 1))) .nil)
      "Python" "Cobol" = "x = 1;" := by decide
example :
    (translate "go" (.cons (.exprStmt (.call (.name "print") (.cons (.name "x") .nil))) .nil) initSt).1
      = "package main\nimport \"fmt\"\n\nfunc main() \x7b\n    fmt.Println(x);\n\x7d" := by decide

/-! ## Concrete programs and catalogs used by the claim theorems -/

/-- The program of claims C2/C3: a single top-level function definition
with a `pass` body (`def f(): pass`). -/
def fnOnlyProg : StmtList :=
  .cons (.functionDef "f" [] (.cons .passStmt .nil)) .nil

/-- The program of claim C1: `x = 5` then `x = 6` in the same (module)
scope. -/
def reassignProg : StmtList :=
  .cons (.assign (.name "x") (.constant (.intV 5)))
    (.cons (.assign (.name "x") (.constant (.intV 6))) .nil)

/-- A top-level function definition with the no-op `pass` body. -/
def mkPassFn (n : String) : Stmt :=
  .functionDef n [] (.cons .passStmt .nil)

/-- A functions-only program: one top-level `pass`-bodied function per
name, in source order. -/
def mkPassFnProg : List String → StmtList
  | [] => .nil
  | n :: ns => .cons (mkPassFn n) (mkPassFnProg ns)

/-- The java text `translate_function` emits for a `pass`-bodied function. -/
def blockStr (n : String) : String :=
  "public static void " ++ n ++ "() \x7b\n    ;\n\x7d"

/-- The header line of `blockStr` (what the java wrapper's line classifier
turns into a class member). -/
def headerStr (n : String) : String :=
  "public static void " ++ n ++ "() \x7b"

/-- The line list of the java module text for a functions-only program:
three lines per block, blank separator lines between blocks. -/
def blockLines : List String → List String
  | [] => [""]
  | [n] => [headerStr n, "    ;", "\x7d"]
  | n :: ns => headerStr n :: "    ;" :: "\x7d" :: "" :: blockLines ns

/-- The lowercase keys that any branch of the translator tests for
(`translate_*` language lists plus `add_language_wrappers` plus
`translate_pass`). -/
def handled_target_keys : List String :=
  ["javascript", "typescript", "java", "c", "cpp", "csharp", "go", "rust", "php",
   "ruby", "swift", "kotlin", "perl", "lua", "dart", "scala", "python"]

/-- The registered target catalog: every lowercase key any emission branch
tests for, i.e. the set of profiles the engine distinguishes. -/
def registered_langs : List String :=
  ["python", "javascript", "typescript", "java", "c", "cpp", "csharp", "go", "rust",
   "php", "ruby", "swift", "kotlin", "perl", "lua", "dart", "scala"]

/-- One representative node per statement variant of the engine's closed
node set (`Pass` is treated separately in the C5 theorems). -/
def representative_stmts : List Stmt :=
  [.functionDef "f" ["a"] (.cons .passStmt .nil),
   .classDef "C" (.cons (.functionDef "m" ["self"] (.cons .passStmt .nil)) .nil),
   .assign (.name "x") (.constant (.intV 5)),
   .augAssign (.name "x") .add (.constant (.intV 1)),
   .ifStmt (.compare (.name "x") (.cons .lt (.constant (.intV 3)) .nil))
     (.cons .passStmt .nil) (.cons .breakStmt .nil),
   .forStmt (.name "i") (.call (.name "range") (.cons (.constant (.intV 10)) .nil))
     (.cons .continueStmt .nil),
   .whileStmt (.constant (.boolV true)) (.cons .breakStmt .nil),
   .ret (some (.name "x")), .ret none,
   .exprStmt (.call (.name "print") (.cons (.constant (.strV "hi")) .nil)),
   .breakStmt, .continueStmt]

/-- One representative node per expression variant of the engine's closed
node set. -/
def representative_exprs : List Expr :=
  [.constant .noneV, .constant (.boolV true), .constant (.strV "s"),
   .constant (.intV 7), .name "y",
   .call (.name "g") (.cons (.name "y") .nil),
   .binop (.name "y") .mult (.constant (.intV 2)),
   .compare (.name "y") (.cons .ge (.constant (.intV 0)) .nil),
   .attribute (.name "obj") "field",
   .subscript (.name "y") (.constant (.intV 0)),
   .listLit (.cons (.constant (.intV 1)) .nil),
   .dictLit (.cons (.constant (.strV "k")) (.constant (.intV 1)) .nil),
   .tupleLit (.cons (.constant (.intV 1)) (.cons (.constant (.intV 2)) .nil)),
   .unaryOp .notOp (.name "y"),
   .boolOp .andOp (.cons (.name "y") (.cons (.name "z") .nil)),
   .ifExp (.name "y") (.constant (.intV 1)) (.constant (.intV 2)),
   .unknown]

/-- Expected emission, per registered profile, of a function whose body is
empty after filtering (its only statement is an import, which translates
to `""`): python and ruby receive the no-op keyword `pass`, every other
profile the fixed token `mero_empty` — never a semicolon. -/
def emptyFnExpected : List (String × String) :=
  [("python", "function f() \x7b\n    pass\n\x7d"),
   ("javascript", "function f() \x7b\n    mero_empty\n\x7d"),
   ("typescript", "function f() \x7b\n    mero_empty\n\x7d"),
   ("java", "public static void f() \x7b\n    mero_empty\n\x7d"),
   ("c", "void f() \x7b\n    mero_empty\n\x7d"),
   ("cpp", "void f() \x7b\n    mero_empty\n\x7d"),
   ("csharp", "public static void f() \x7b\n    mero_empty\n\x7d"),
   ("go", "func f() \x7b\n    mero_empty\n\x7d"),
   ("rust", "fn f() \x7b\n    mero_empty\n\x7d"),
   ("php", "function f() \x7b\n    mero_empty\n\x7d"),
   ("ruby", "def f()\n    pass\nend"),
   ("swift", "func f() \x7b\n    mero_empty\n\x7d"),
   ("kotlin", "fun f() \x7b\n    mero_empty\n\x7d"),
   ("perl", "sub f \x7b\n    my () = @_;\n    mero_empty\n\x7d"),
   ("lua", "function f()\n    mero_empty\nend"),
   ("dart", "f() \x7b\n    mero_empty\n\x7d"),
   ("scala", "def f() = \x7b\n    mero_empty\n\x7d")]

/-- Expected emission, per registered profile, of a class whose body is
empty after filtering: always an indentation-only blank line inside the
block — `translate_class` has no empty-body patch. -/
def emptyClassExpected : List (String × String) :=
  [("python", "class C \x7b\n        \n\x7d"),
   ("javascript", "class C \x7b\n        \n\x7d"),
   ("typescript", "class C \x7b\n        \n\x7d"),
   ("java", "public class C \x7b\n        \n\x7d"),
   ("c", "class C \x7b\npublic:\n        \n\x7d;"),
   ("cpp", "class C \x7b\npublic:\n        \n\x7d;"),
   ("csharp", "public class C \x7b\n        \n\x7d"),
   ("go", "class C \x7b\n        \n\x7d"),
   ("rust", "class C \x7b\n        \n\x7d"),
   ("php", "class C \x7b\n        \n\x7d"),
   ("ruby", "class C\n        \nend"),
   ("swift", "class C \x7b\n        \n\x7d"),
   ("kotlin", "class C \x7b\n        \n\x7d"),
   ("perl", "class C \x7b\n        \n\x7d"),
   ("lua", "class C \x7b\n        \n\x7d"),
   ("dart", "class C \x7b\n        \n\x7d"),
   ("scala", "class C \x7b\n        \n\x7d")]

/-- Expected emission, per registered profile, of an `if` whose body is
empty after filtering: always an indentation-only blank line inside the
block — `translate_if` has no empty-body patch either. -/
def emptyIfExpected : List (String × String) :=
  [("python", "if (x) \x7b\n        \n\x7d"),
   ("javascript", "if (x) \x7b\n        \n\x7d"),
   ("typescript", "if (x) \x7b\n        \n\x7d"),
   ("java", "if (x) \x7b\n        \n\x7d"),
   ("c", "if (x) \x7b\n        \n\x7d"),
   ("cpp", "if (x) \x7b\n        \n\x7d"),
   ("csharp", "if (x) \x7b\n        \n\x7d"),
   ("go", "if (x) \x7b\n        \n\x7d"),
   ("rust", "if (x) \x7b\n        \n\x7d"),
   ("php", "if ($x) \x7b\n        \n\x7d"),
   ("ruby", "if x then\n        \nend"),
   ("swift", "if (x) \x7b\n        \n\x7d"),
   ("kotlin", "if (x) \x7b\n        \n\x7d"),
   ("perl", "if (x) \x7b\n        \n\x7d"),
   ("lua", "if x then\n        \nend"),
   ("dart", "if (x) \x7b\n        \n\x7d"),
   ("scala", "if (x) \x7b\n        \n\x7d")]

/-! ## State invariants of the statement emitter

`indent_level` is incremented and decremented in matched pairs around every
block recursion, so every statement leaves it where it found it; and no
emission path ever reads `self.variables`, so the emitted text depends on
the entry state only through the indent level. -/

mutual
/-- Every statement translation restores `indent_level` on return. -/
theorem translate_statement_ind_eq (lang : String) (s : Stmt) (st : St) :
    ((translate_statement lang s st).2).ind = st.ind := by
  cases s with
  | functionDef n ps body =>
      have h := translate_body_lines_ind_eq lang body {st with ind := st.ind + 1}
      simp [translate_statement, h]
  | classDef n body =>
      have h := translate_body_lines_ind_eq lang body {st with ind := st.ind + 1}
      simp [translate_statement, h]
  | assign target value =>
      cases target
        <;> (first
          | (simp only [translate_statement]; split <;> simp)
          | simp [translate_statement])
  | augAssign target op value => simp [translate_statement]
  | ifStmt test body orelse =>
      have h := translate_body_lines_ind_eq lang body {st with ind := st.ind + 1}
      cases orelse with
      | nil => simp [translate_statement, h]
      | cons s2 rest2 =>
          have h2 := fun st2 => translate_body_lines_ind_eq lang (.cons s2 rest2) st2
          simp [translate_statement, h, h2]
  | forStmt target iter body =>
      have h := translate_body_lines_ind_eq lang body {st with ind := st.ind + 1}
      simp [translate_statement, h]
  | whileStmt test body =>
      have h := translate_body_lines_ind_eq lang body {st with ind := st.ind + 1}
      simp [translate_statement, h]
  | ret value => simp [translate_statement]
  | exprStmt e => simp [translate_statement]
  | importStmt => simp [translate_statement]
  | importFrom => simp [translate_statement]
  | passStmt => simp [translate_statement]
  | breakStmt => simp [translate_statement]
  | continueStmt => simp [translate_statement]

/-- Translating a statement list restores `indent_level` on return. -/
theorem translate_body_lines_ind_eq (lang : String) (l : StmtList) (st : St) :
    ((translate_body_lines lang l st).2).ind = st.ind := by
  cases l with
  | nil => simp [translate_body_lines]
  | cons s rest =>
      have h1 := translate_statement_ind_eq lang s st
      have h2 := translate_body_lines_ind_eq lang rest (translate_statement lang s st).2
      simp [translate_body_lines, h2, h1]
end

mutual
/-- No emission path reads `self.variables`: the emitted text of a statement
depends on the entry state only through the indent level. -/
theorem translate_statement_out_congr (lang : String) (s : Stmt) :
    ∀ st st', st.ind = st'.ind →
      (translate_statement lang s st).1 = (translate_statement lang s st').1 := by
  cases s with
  | functionDef n ps body =>
      intro st st' h
      simp only [translate_statement]
      generalize hr : translate_body_lines lang body {st with ind := st.ind + 1} = r
      generalize hrp : translate_body_lines lang body {st' with ind := st'.ind + 1} = rp
      have hb : r.1 = rp.1 := by
        rw [← hr, ← hrp]
        exact translate_body_lines_out_congr lang body _ _ (by simp [h])
      have h1 : r.2.ind = st.ind + 1 := by
        rw [← hr]; simpa using translate_body_lines_ind_eq lang body _
      have h2 : rp.2.ind = st'.ind + 1 := by
        rw [← hrp]; simpa using translate_body_lines_ind_eq lang body _
      simp [hb, h1, h2, h]
  | classDef n body =>
      intro st st' h
      simp only [translate_statement]
      generalize hr : translate_body_lines lang body {st with ind := st.ind + 1} = r
      generalize hrp : translate_body_lines lang body {st' with ind := st'.ind + 1} = rp
      have hb : r.1 = rp.1 := by
        rw [← hr, ← hrp]
        exact translate_body_lines_out_congr lang body _ _ (by simp [h])
      have h1 : r.2.ind = st.ind + 1 := by
        rw [← hr]; simpa using translate_body_lines_ind_eq lang body _
      have h2 : rp.2.ind = st'.ind + 1 := by
        rw [← hrp]; simpa using translate_body_lines_ind_eq lang body _
      simp [hb, h1, h2, h]
  | assign target value =>
      intro st st' h
      cases target <;> simp [translate_statement, h]
  | augAssign target op value =>
      intro st st' h
      simp [translate_statement, h]
  | ifStmt test body orelse =>
      intro st st' h
      cases orelse with
      | nil =>
          simp only [translate_statement]
          generalize hr : translate_body_lines lang body {st with ind := st.ind + 1} = r
          generalize hrp : translate_body_lines lang body {st' with ind := st'.ind + 1} = rp
          have hb : r.1 = rp.1 := by
            rw [← hr, ← hrp]
            exact translate_body_lines_out_congr lang body _ _ (by simp [h])
          have h1 : r.2.ind = st.ind + 1 := by
            rw [← hr]; simpa using translate_body_lines_ind_eq lang body _
          have h2 : rp.2.ind = st'.ind + 1 := by
            rw [← hrp]; simpa using translate_body_lines_ind_eq lang body _
          simp [hb, h1, h2, h]
      | cons s2 rest2 =>
          simp only [translate_statement]
          generalize hr : translate_body_lines lang body {st with ind := st.ind + 1} = r
          generalize hrp : translate_body_lines lang body {st' with ind := st'.ind + 1} = rp
          have hb : r.1 = rp.1 := by
            rw [← hr, ← hrp]
            exact translate_body_lines_out_congr lang body _ _ (by simp [h])
          have h1 : r.2.ind = st.ind + 1 := by
            rw [← hr]; simpa using translate_body_lines_ind_eq lang body _
          have h2 : rp.2.ind = st'.ind + 1 := by
            rw [← hrp]; simpa using translate_body_lines_ind_eq lang body _
          have he : ((translate_body_lines lang (.cons s2 rest2)
              ⟨st'.ind + 1, r.2.vars⟩)).1
              = ((translate_body_lines lang (.cons s2 rest2)
                ⟨st'.ind + 1, rp.2.vars⟩)).1 :=
            translate_body_lines_out_congr lang (.cons s2 rest2) _ _ rfl
          have he1 := fun st2 => translate_body_lines_ind_eq lang (.cons s2 rest2) st2
          simp [hb, h1, h2, h, he1, he]
  | forStmt target iter body =>
      intro st st' h
      simp only [translate_statement]
      generalize hr : translate_body_lines lang body {st with ind := st.ind + 1} = r
      generalize hrp : translate_body_lines lang body {st' with ind := st'.ind + 1} = rp
      have hb : r.1 = rp.1 := by
        rw [← hr, ← hrp]
        exact translate_body_lines_out_congr lang body _ _ (by simp [h])
      have h1 : r.2.ind = st.ind + 1 := by
        rw [← hr]; simpa using translate_body_lines_ind_eq lang body _
      have h2 : rp.2.ind = st'.ind + 1 := by
        rw [← hrp]; simpa using translate_body_lines_ind_eq lang body _
      simp [hb, h1, h2, h]
  | whileStmt test body =>
      intro st st' h
      simp only [translate_statement]
      generalize hr : translate_body_lines lang body {st with ind := st.ind + 1} = r
      generalize hrp : translate_body_lines lang body {st' with ind := st'.ind + 1} = rp
      have hb : r.1 = rp.1 := by
        rw [← hr, ← hrp]
        exact translate_body_lines_out_congr lang body _ _ (by simp [h])
      have h1 : r.2.ind = st.ind + 1 := by
        rw [← hr]; simpa using translate_body_lines_ind_eq lang body _
      have h2 : rp.2.ind = st'.ind + 1 := by
        rw [← hrp]; simpa using translate_body_lines_ind_eq lang body _
      simp [hb, h1, h2, h]
  | ret value => intro st st' h; simp [translate_statement, h]
  | exprStmt e => intro st st' h; simp [translate_statement, h]
  | importStmt => intro st st' h; simp [translate_statement]
  | importFrom => intro st st' h; simp [translate_statement]
  | passStmt => intro st st' h; simp [translate_statement, h]
  | breakStmt => intro st st' h; simp [translate_statement, h]
  | continueStmt => intro st st' h; simp [translate_statement, h]

/-- The filtered line list of a statement sequence depends on the entry
state only through the indent level. -/
theorem translate_body_lines_out_congr (lang : String) (l : StmtList) :
    ∀ st st', st.ind = st'.ind →
      (translate_body_lines lang l st).1 = (translate_body_lines lang l st').1 := by
  cases l with
  | nil => intro st st' h; simp [translate_body_lines]
  | cons s rest =>
      intro st st' h
      have hs := translate_statement_out_congr lang s st st' h
      have hA := translate_statement_ind_eq lang s st
      have hA' := translate_statement_ind_eq lang s st'
      have hrest := translate_body_lines_out_congr lang rest
        (translate_statement lang s st).2 (translate_statement lang s st').2
        (by rw [hA, hA', h])
      simp only [translate_body_lines]
      simp [hs, hrest]
end

/-! ## Module-level invariants -/

/-- The module loop restores `indent_level`. -/
theorem translate_module_aux_ind_eq (lang : String) (l : StmtList) (st : St) :
    ((translate_module_aux lang l st).2.2).ind = st.ind := by
  cases l with
  | nil => simp [translate_module_aux]
  | cons s rest =>
      have hs := translate_statement_ind_eq lang s st
      have ih := fun st2 => translate_module_aux_ind_eq lang rest st2
      cases s <;> simp [translate_module_aux, ih, hs]

/-- The import and main line lists of the module loop depend on the entry
state only through the indent level. -/
theorem translate_module_aux_out_congr (lang : String) (l : StmtList) :
    ∀ st st', st.ind = st'.ind →
      (translate_module_aux lang l st).1 = (translate_module_aux lang l st').1
      ∧ (translate_module_aux lang l st).2.1 = (translate_module_aux lang l st').2.1 := by
  cases l with
  | nil => intro st st' h; simp [translate_module_aux]
  | cons s rest =>
      intro st st' h
      have hs := translate_statement_out_congr lang s st st' h
      have hA := translate_statement_ind_eq lang s st
      have hA' := translate_statement_ind_eq lang s st'
      have hrest := translate_module_aux_out_congr lang rest
        (translate_statement lang s st).2 (translate_statement lang s st').2
        (by rw [hA, hA', h])
      cases s <;> simp [translate_module_aux, hs, hrest.1, hrest.2]

/-- `translate` (module + wrappers) leaves `indent_level` unchanged. -/
theorem translate_ind_eq (lang : String) (tree : StmtList) (st : St) :
    ((translate lang tree st).2).ind = st.ind := by
  simp [translate, translate_module, translate_module_aux_ind_eq]

/-- The whole-program output depends on the entry state only through the
indent level. -/
theorem translate_out_congr (lang : String) (tree : StmtList) :
    ∀ st st', st.ind = st'.ind →
      (translate lang tree st).1 = (translate lang tree st').1 := by
  intro st st' h
  have h1 := translate_module_aux_out_congr lang tree st st' h
  simp [translate, translate_module, h1.1, h1.2]

/-! ## String decomposition lemmas

Used to characterize the java wrapper on arbitrary functions-only
programs: how `String.intercalate` composes, how `splitOnChar` acts on
appended segments, and when `pyStrip` is the identity. -/

/-- Appending on `String` agrees with appending the character lists. -/
theorem strData_append (a b : String) : (a ++ b).data = a.data ++ b.data := rfl

/-- Rebuilding a string from its character list is the identity. -/
theorem strMk_data (s : String) : String.mk s.data = s := rfl

/-- The accumulator of `String.intercalate.go` factors out on the left. -/
theorem intercalate_go_append (acc1 acc2 s : String) (l : List String) :
    String.intercalate.go (acc1 ++ acc2) s l
      = acc1 ++ String.intercalate.go acc2 s l := by
  induction l generalizing acc2 with
  | nil => rfl
  | cons x xs ih =>
      show String.intercalate.go (acc1 ++ acc2 ++ s ++ x) s xs = _
      rw [String.append_assoc acc1 acc2 s, String.append_assoc acc1 (acc2 ++ s) x, ih]
      rfl

/-- Peeling the first of at least two interleaved strings. -/
theorem intercalate_cons2 (s a b : String) (l : List String) :
    String.intercalate s (a :: b :: l) = a ++ s ++ String.intercalate s (b :: l) := by
  show String.intercalate.go (a ++ s ++ b) s l = _
  rw [intercalate_go_append (a ++ s) b s l]
  rfl

/-- Interleaving a single string is that string. -/
theorem intercalate_singleton (s a : String) : String.intercalate s [a] = a := rfl

/-- `splitOnChar` never returns the empty list. -/
theorem splitOnChar_ne_nil (sep : Char) (l : List Char) : splitOnChar sep l ≠ [] := by
  cases l with
  | nil => simp [splitOnChar]
  | cons c cs =>
      simp only [splitOnChar]
      cases h : splitOnChar sep cs with
      | nil => simp
      | cons a t => by_cases hcs : c = sep <;> simp [hcs]

/-- A separator-free list does not split. -/
theorem splitOnChar_of_not_mem (sep : Char) (l : List Char) (h : sep ∉ l) :
    splitOnChar sep l = [l] := by
  induction l with
  | nil => simp [splitOnChar]
  | cons c cs ih =>
      simp only [List.mem_cons, not_or] at h
      have hc : ¬ c = sep := fun hh => h.1 hh.symm
      simp [splitOnChar, ih h.2, hc]

/-- Splitting after a separator-free prefix peels that prefix off. -/
theorem splitOnChar_append_cons (sep : Char) (xs ys : List Char) (h : sep ∉ xs) :
    splitOnChar sep (xs ++ sep :: ys) = xs :: splitOnChar sep ys := by
  induction xs with
  | nil =>
      simp only [List.nil_append, splitOnChar]
      cases hy : splitOnChar sep ys with
      | nil => exact absurd hy (splitOnChar_ne_nil sep ys)
      | cons a t => simp
  | cons c cs ih =>
      simp only [List.mem_cons, not_or] at h
      have hc : ¬ c = sep := fun hh => h.1 hh.symm
      rw [List.cons_append]
      simp only [splitOnChar]
      rw [ih h.2]
      simp [hc]

/-- Splitting at a leading separator peels off one empty line. -/
theorem splitOnChar_sep_cons (sep : Char) (ys : List Char) :
    splitOnChar sep (sep :: ys) = [] :: splitOnChar sep ys := by
  have h := splitOnChar_append_cons sep [] ys (by simp)
  simpa using h

/-- Splitting after a single non-separator character. -/
theorem splitOnChar_cons_sep (sep c : Char) (ys : List Char) (h : ¬ c = sep) :
    splitOnChar sep (c :: sep :: ys) = [c] :: splitOnChar sep ys := by
  have h2 := splitOnChar_append_cons sep [c] ys (by
    simp only [List.mem_singleton]
    exact fun hh => h hh.symm)
  simpa using h2

/-- Dropping leading whitespace is the identity when the head is not
whitespace. -/
theorem dropLeadingWs_of_head (c : Char) (cs : List Char)
    (h : isPyWhitespace c = false) : dropLeadingWs (c :: cs) = c :: cs := by
  simp [dropLeadingWs, h]

/-- Python strip is the identity on a string whose first and last
characters are not whitespace. -/
theorem pyStrip_of_shape (a b : Char) (m : List Char)
    (ha : isPyWhitespace a = false) (hb : isPyWhitespace b = false) :
    pyStrip ⟨a :: m ++ [b]⟩ = ⟨a :: m ++ [b]⟩ := by
  have h1 : (a :: m ++ [b]).reverse = b :: (m.reverse ++ [a]) := by simp
  simp [pyStrip, h1, dropLeadingWs_of_head, ha, hb]

/-- A string starts with any of its prefixes. -/
theorem startsWithAux_append (p rest : List Char) :
    startsWithAux (p ++ rest) p = true := by
  induction p with
  | nil => cases rest <;> simp [startsWithAux]
  | cons c cs ih => simp [startsWithAux, ih]

/-! ## The java wrapper on arbitrary functions-only programs -/

/-- A java `pass`-bodied function block is never the empty string. -/
theorem blockStr_ne_empty (n : String) : blockStr n ≠ "" := by
  intro h
  have h2 := congrArg String.data h
  simp [blockStr, strData_append] at h2

/-- Emitting one `pass`-bodied function for java from the fresh-instance
state: the block text, state unchanged. -/
theorem translate_passFn_java (n : String) :
    translate_statement "java" (mkPassFn n) initSt = (blockStr n, initSt) := by
  have h1 : pyStrip "    ;" = ";" := by decide
  have h2 : String.intercalate "\n" ["    ;"] = "    ;" := rfl
  have h3 : String.join ["    "] = "    " := rfl
  have h4 : String.join ([] : List String) = "" := rfl
  have h5 : String.intercalate ", " ([] : List String) = "" := rfl
  simp [mkPassFn, translate_statement, translate_body_lines, blockStr, initSt,
    translate_parameters, joinBody, get_indent, h1, h2, h3, h4, h5,
    String.append_assoc]

/-- The module loop on a functions-only program: no imports, one block per
function in source order, state unchanged. -/
theorem module_aux_passFns (names : List String) :
    translate_module_aux "java" (mkPassFnProg names) initSt
      = ([], names.map blockStr, initSt) := by
  induction names with
  | nil => simp [mkPassFnProg, translate_module_aux]
  | cons n ns ih =>
      have h1 := translate_passFn_java n
      simp only [mkPassFn] at h1
      have h2 := blockStr_ne_empty n
      simp [mkPassFnProg, mkPassFn, translate_module_aux, h1, h2, ih]

/-- `translate_module` on a functions-only program for java. -/
theorem module_passFns (names : List String) :
    translate_module "java" (mkPassFnProg names) initSt
      = (String.intercalate "\n\n" (names.map blockStr), initSt) := by
  simp [translate_module, module_aux_passFns]

/-- The header line contains no newline when the name does not. -/
theorem headerStr_no_newline (n : String) (h : ('\n' : Char) ∉ n.data) :
    ('\n' : Char) ∉ (headerStr n).data := by
  simp only [headerStr, strData_append, List.mem_append]
  rintro ((hh | hh) | hh)
  · revert hh; decide
  · exact h hh
  · revert hh; decide

/-- The data of a block decomposes into the header, the no-op line and the
closing brace, newline-separated. -/
theorem blockStr_data (n : String) :
    (blockStr n).data
      = (headerStr n).data ++ '\n' :: (("    ;" : String).data ++ '\n' :: [('}' : Char)]) := by
  have hw : ("() \x7b\n    ;\n\x7d" : String).data
      = ("() \x7b" : String).data ++ '\n' :: (("    ;" : String).data ++ '\n' :: [('}' : Char)]) := by
    decide
  simp [blockStr, headerStr, strData_append, List.append_assoc, hw]

/-- Splitting the java module text of a functions-only program yields the
interleaved line list: header, no-op, closing brace, blank separator. -/
theorem pySplitLines_blocks (names : List String)
    (h : ∀ n ∈ names, ('\n' : Char) ∉ n.data) :
    pySplitLines (String.intercalate "\n\n" (names.map blockStr))
      = blockLines names := by
  induction names with
  | nil => rfl
  | cons n ns ih =>
      have hn : ('\n' : Char) ∉ (headerStr n).data :=
        headerStr_no_newline n (h n (by simp))
      have hsemi : ('\n' : Char) ∉ ("    ;" : String).data := by decide
      have hbrace : ('\n' : Char) ∉ [('}' : Char)] := by decide
      have hmkb : (String.mk [('}' : Char)]) = "\x7d" := rfl
      have hmke : (String.mk ([] : List Char)) = "" := rfl
      cases ns with
      | nil =>
          simp only [List.map_cons, List.map_nil, intercalate_singleton, pySplitLines,
            blockStr_data]
          rw [splitOnChar_append_cons _ _ _ hn, splitOnChar_append_cons _ _ _ hsemi,
            splitOnChar_of_not_mem _ _ hbrace]
          simp [blockLines, strMk_data, hmkb]
      | cons m ms =>
          have htail := ih (fun x hx => h x (by simp [hx]))
          simp only [List.map_cons] at htail ⊢
          rw [intercalate_cons2]
          have hdata : (blockStr n ++ "\n\n"
              ++ String.intercalate "\n\n" (blockStr m :: ms.map blockStr)).data
              = (headerStr n).data ++ '\n' :: (("    ;" : String).data ++ '\n'
                :: ('}' :: '\n' :: ('\n'
                  :: (String.intercalate "\n\n" (blockStr m :: ms.map blockStr)).data))) := by
            have hnn : ("\n\n" : String).data = ['\n', '\n'] := rfl
            simp [strData_append, blockStr_data, hnn, List.append_assoc]
          simp only [pySplitLines, hdata]
          rw [splitOnChar_append_cons _ _ _ hn, splitOnChar_append_cons _ _ _ hsemi,
            splitOnChar_cons_sep _ _ _ (by decide), splitOnChar_sep_cons]
          have hrest : (splitOnChar '\n'
              (String.intercalate "\n\n" (blockStr m :: ms.map blockStr)).data).map
                (fun l => String.mk l) = blockLines (m :: ms) := htail
          simp only [List.map_cons, strMk_data, hmkb, hmke, hrest]
          simp [blockLines]

/-- The stripped header line is itself: it begins with `p` and ends with
an opening brace. -/
theorem pyStrip_headerStr (n : String) : pyStrip (headerStr n) = headerStr n := by
  have hshape : (headerStr n).data
      = 'p' :: (("ublic static void " : String).data ++ n.data
        ++ ("() " : String).data) ++ [('{' : Char)] := by
    have h1 : ("public static void " : String).data
        = 'p' :: ("ublic static void " : String).data := by decide
    have h2 : ("() \x7b" : String).data = ("() " : String).data ++ [('{' : Char)] := by
      decide
    simp [headerStr, strData_append, h1, h2, List.append_assoc]
  have := pyStrip_of_shape 'p' '{'
    (("ublic static void " : String).data ++ n.data ++ ("() " : String).data)
    (by decide) (by decide)
  calc pyStrip (headerStr n)
      = pyStrip ⟨(headerStr n).data⟩ := by rw [strMk_data]
    _ = headerStr n := by rw [hshape]; rw [this]; rw [← hshape, strMk_data]

/-- The header line is classified as a class member by the java wrapper. -/
theorem isJavaMember_headerStr (n : String) : isJavaMember (headerStr n) = true := by
  have hsw : pyStartsWith (headerStr n) "public static void" = true := by
    have h1 : (headerStr n).data
        = ("public static void" : String).data
          ++ (' ' :: (n.data ++ ("() \x7b" : String).data)) := by
      have : ("public static void " : String).data
          = ("public static void" : String).data ++ [' '] := by decide
      simp [headerStr, strData_append, this, List.append_assoc]
    show startsWithAux (headerStr n).data ("public static void" : String).data = true
    rw [h1]
    exact startsWithAux_append _ _
  simp [isJavaMember, pyStrip_headerStr, hsw]

/-- The header line is not routed to the synthesized `main`. -/
theorem isJavaMain_headerStr (n : String) : isJavaMain (headerStr n) = false := by
  simp [isJavaMain, isJavaMember_headerStr]

/-- The class-member filter keeps exactly the header lines, in order. -/
theorem filter_member_blockLines (names : List String) :
    (blockLines names).filter isJavaMember = names.map headerStr := by
  have hm1 : isJavaMember "    ;" = false := by decide
  have hm2 : isJavaMember "\x7d" = false := by decide
  have hm3 : isJavaMember "" = false := by decide
  induction names with
  | nil => simp [blockLines, List.filter, hm3]
  | cons n ns ih =>
      cases ns with
      | nil => simp [blockLines, List.filter, isJavaMember_headerStr, hm1, hm2]
      | cons m ms =>
          simp [blockLines, List.filter, isJavaMember_headerStr, hm1, hm2, hm3, ih]

/-- The main-line filter keeps exactly the functions' no-op body lines. -/
theorem filter_main_blockLines (names : List String) :
    (blockLines names).filter isJavaMain = names.map (fun _ => "    ;") := by
  have ha1 : isJavaMain "    ;" = true := by decide
  have ha2 : isJavaMain "\x7d" = false := by decide
  have ha3 : isJavaMain "" = false := by decide
  induction names with
  | nil => simp [blockLines, List.filter, ha3]
  | cons n ns ih =>
      cases ns with
      | nil => simp [blockLines, List.filter, isJavaMain_headerStr, ha1, ha2]
      | cons m ms =>
          simp [blockLines, List.filter, isJavaMain_headerStr, ha1, ha2, ha3, ih]

/-- The java module text of a functions-only program has no leading or
trailing whitespace, so the wrapper's strip leaves it unchanged. -/
theorem pyStrip_blocks (n : String) (ns : List String) :
    pyStrip (String.intercalate "\n\n" ((n :: ns).map blockStr))
      = String.intercalate "\n\n" ((n :: ns).map blockStr) := by
  have shape : ∀ (ms : List String) (x : String), ∃ mid,
      (String.intercalate "\n\n" ((x :: ms).map blockStr)).data
        = 'p' :: mid ++ [('}' : Char)] := by
    intro ms
    induction ms with
    | nil =>
        intro x
        refine ⟨("ublic static void " : String).data ++ x.data
          ++ ("() \x7b\n    ;\n" : String).data, ?_⟩
        have h1 : ("public static void " : String).data
            = 'p' :: ("ublic static void " : String).data := by decide
        have h2 : ("() \x7b\n    ;\n\x7d" : String).data
            = ("() \x7b\n    ;\n" : String).data ++ [('}' : Char)] := by decide
        simp only [List.map_cons, List.map_nil, intercalate_singleton]
        simp [blockStr, strData_append, h1, h2, List.append_assoc]
    | cons b bs ih =>
        intro x
        obtain ⟨mid, hmid⟩ := ih b
        refine ⟨("ublic static void " : String).data ++ x.data
          ++ ("() \x7b\n    ;\n\x7d" : String).data ++ [('\n' : Char), '\n']
          ++ 'p' :: mid, ?_⟩
        simp only [List.map_cons] at hmid ⊢
        rw [intercalate_cons2]
        have h1 : ("public static void " : String).data
            = 'p' :: ("ublic static void " : String).data := by decide
        have hnn : ("\n\n" : String).data = ['\n', '\n'] := rfl
        simp only [blockStr] at hmid
        simp [strData_append, blockStr, hmid, h1, hnn, List.append_assoc]
  obtain ⟨mid, hmid⟩ := shape ns n
  calc pyStrip (String.intercalate "\n\n" ((n :: ns).map blockStr))
      = pyStrip ⟨(String.intercalate "\n\n" ((n :: ns).map blockStr)).data⟩ := by
        rw [strMk_data]
    _ = String.intercalate "\n\n" ((n :: ns).map blockStr) := by
        rw [hmid, pyStrip_of_shape 'p' '}' mid (by decide) (by decide),
          ← hmid, strMk_data]

/-! ## Claim theorems -/




/-- C1 counterexample: in the javascript profile, `x = 5; x = 6` in one
scope emits the declaration keyword `let` on *both* assignments — the
second emitted assignment still carries it, contradicting
declaration-once.  The second conjunct isolates the second assignment:
translated in the exact instance state the first assignment left behind
(with `"x"` already in `self.variables`), it still emits `let`. -/
theorem c1_redeclaration_counterexample :
    (translate "javascript" reassignProg initSt).1 = "let x = 5;\n\nlet x = 6;"
    ∧ (translate_statement "javascript" (.assign (.name "x") (.constant (.intV 6)))
        (translate_statement "javascript" (.assign (.name "x") (.constant (.intV 5))) initSt).2).1
      = "let x = 6;" := ⟨by decide, by decide⟩

/-- C1 amended: `translate_assignment` emits the profile's declaration
keyword on **every** assignment, first and later alike, for every profile
that uses a declaration keyword — javascript/typescript `let`,
java/csharp/swift/kotlin/dart `var`, c/cpp `auto`, go `:=`, rust
`let mut`, perl `my $`, lua `local`, scala `val` (php, ruby and python are
the catalog's keyword-free profiles).  The emitted text is the same for
every entry state, in particular for states whose declared-variable set
already contains the target name.  (The set is written at
src/tr/core.py:160 but never read.) -/
theorem c1_declaration_keyword_every_assignment (st : St) :
    (translate_statement "javascript" (.assign (.name "x") (.name "y")) st).1
      = get_indent st.ind ++ "let x = y;"
    ∧ (translate_statement "typescript" (.assign (.name "x") (.name "y")) st).1
      = get_indent st.ind ++ "let x = y;"
    ∧ (translate_statement "java" (.assign (.name "x") (.name "y")) st).1
      = get_indent st.ind ++ "var x = y;"
    ∧ (translate_statement "c" (.assign (.name "x") (.name "y")) st).1
      = get_indent st.ind ++ "auto x = y;"
    ∧ (translate_statement "cpp" (.assign (.name "x") (.name "y")) st).1
      = get_indent st.ind ++ "auto x = y;"
    ∧ (translate_statement "csharp" (.assign (.name "x") (.name "y")) st).1
      = get_indent st.ind ++ "var x = y;"
    ∧ (translate_statement "go" (.assign (.name "x") (.name "y")) st).1
      = get_indent st.ind ++ "x := y"
    ∧ (translate_statement "rust" (.assign (.name "x") (.name "y")) st).1
      = get_indent st.ind ++ "let mut x = y;"
    ∧ (translate_statement "swift" (.assign (.name "x") (.name "y")) st).1
      = get_indent st.ind ++ "var x = y"
    ∧ (translate_statement "kotlin" (.assign (.name "x") (.name "y")) st).1
      = get_indent st.ind ++ "var x = y"
    ∧ (translate_statement "perl" (.assign (.name "x") (.name "y")) st).1
      = get_indent st.ind ++ "my $x = y;"
    ∧ (translate_statement "lua" (.assign (.name "x") (.name "y")) st).1
      = get_indent st.ind ++ "local x = y"
    ∧ (translate_statement "dart" (.assign (.name "x") (.name "y")) st).1
      = get_indent st.ind ++ "var x = y;"
    ∧ (translate_statement "scala" (.assign (.name "x") (.name "y")) st).1
      = get_indent st.ind ++ "val x = y" := by
  refine ⟨?_, ?_, ?_, ?_, ?_, ?_, ?_, ?_, ?_, ?_, ?_, ?_, ?_, ?_⟩ <;>
    simp [translate_statement, translate_expr_target, translate_expr,
      translate_constant_name, String.append_assoc]


/-- C2 counterexample: the unknown target identifier `"Cobol"` is not
rejected: `smart_translate` resolves it to `"cobol"` by lowercasing,
constructs a translator, and emits text through the per-construct default
branches.  No error value exists anywhere on this path (the model's return
type is `String` because the source raises nothing); the output is a
genuine default emission, not the input echoed back. -/
theorem c2_unknown_target_emits_text :
    smart_translate "def f(): pass" fnOnlyProg "Python" "Cobol" = "function f() \x7b\n    ;\n\x7d"
    ∧ smart_translate "def f(): pass" fnOnlyProg "Python" "Cobol" ≠ "def f(): pass" :=
  ⟨by decide, by decide⟩

/-- Emission of the one-function program under any target key outside every
handled branch: all dispatches take their `else` defaults. -/
theorem unknown_key_emission (k : String) (h : k ∉ handled_target_keys) :
    (translate k fnOnlyProg initSt).1 = "function f() \x7b\n    ;\n\x7d" := by
  simp only [handled_target_keys, List.mem_cons, List.not_mem_nil, or_false, not_or] at h
  obtain ⟨hjs, hts, hjava, hc, hcpp, hcs, hgo, hrust, hphp, hruby, hsw, hkt, hpl,
    hlua, hdart, hscala, hpy⟩ := h
  simp only [translate, translate_module, translate_module_aux, translate_statement,
    translate_body_lines, translate_parameters, joinBody, add_language_wrappers]
  simp [hjs, hts, hjava, hc, hcpp, hcs, hgo, hrust, hphp, hruby,
    hsw, hkt, hpl, hlua, hdart, hscala, hpy, get_indent, initSt]
  decide

/-- C2 amended: for every target identifier whose resolved catalog key lies
outside all handled keys, `smart_translate` silently proceeds and returns
the default-branch emission of the program — there is no typed
configuration error. -/
theorem c2_unknown_target_default_emission (to_lang : String)
    (h : pyLower (lang_map_get to_lang) ∉ handled_target_keys) :
    smart_translate "def f(): pass" fnOnlyProg "Python" to_lang
      = "function f() \x7b\n    ;\n\x7d" := by
  have hfk : lang_map_get "Python" = "python" := by decide
  simp only [smart_translate, hfk, if_pos]
  exact unknown_key_emission _ h

/-- Witness for `c2_unknown_target_default_emission` at `to_lang = "Cobol"`. -/
theorem c2_unknown_target_default_emission_witness :
    pyLower (lang_map_get "Cobol") ∉ handled_target_keys
    ∧ smart_translate "def f(): pass" fnOnlyProg "Python" "Cobol"
      = "function f() \x7b\n    ;\n\x7d" :=
  ⟨by decide, c2_unknown_target_default_emission "Cobol" (by decide)⟩

/-- C3 counterexample: a program of one top-level function with an empty
(`pass`) body, targeted at java.  The wrapper classifies the emitted text
line by line: the function's *header* line becomes the sole class member
(its closing brace is dropped), and the function's body line `;` is moved
into the synthesized `main`, whose body is therefore *not* empty.  The
second conjunct checks the classifier directly: the main-line filter over
the emitted module text is non-empty. -/
theorem c3_java_wrapper_counterexample :
    (translate "java" fnOnlyProg initSt).1
      = "public class MeroTranslated \x7b\npublic static void f() \x7b\n\n    public static void main(String[] args) \x7b\n        ;\n    \x7d\n\x7d"
    ∧ (pySplitLines (pyStrip (translate_module "java" fnOnlyProg initSt).1)).filter isJavaMain
      ≠ [] :=
  ⟨by decide, by decide⟩

/-- C3 amended: for every functions-only program targeted at java — any
number of `pass`-bodied top-level functions, with any newline-free names —
the wrapper emits exactly one wrapping class whose members are the
function *header* lines in source order (function bodies and closing
braces are dropped from the class), and a synthesized `main` entry point
whose body holds the functions' no-op body lines, one per function —
hence non-empty whenever the program has a function. -/
theorem c3_java_wrapper_functions_only (names : List String)
    (h : ∀ n ∈ names, ('\n' : Char) ∉ n.data) :
    (translate "java" (mkPassFnProg names) initSt).1
      = "public class MeroTranslated \x7b\n"
        ++ String.intercalate "\n" (names.map headerStr)
        ++ "\n\n    public static void main(String[] args) \x7b\n"
        ++ String.intercalate "\n" (names.map (fun _ => "        ;"))
        ++ "\n    \x7d\n\x7d" := by
  cases names with
  | nil => decide
  | cons n ns =>
      have hmod := module_passFns (n :: ns)
      have hsplit := pySplitLines_blocks (n :: ns) h
      have hstrip := pyStrip_blocks n ns
      have hfm := filter_member_blockLines (n :: ns)
      have hfa := filter_main_blockLines (n :: ns)
      have hps : "        " ++ pyStrip "    ;" = "        ;" := by decide
      simp only [List.map_cons] at hmod hsplit hstrip hfm hfa
      simp [translate, hmod, add_language_wrappers, java_wrap, hstrip, hsplit,
        hfm, hfa, hps, List.map_map, Function.comp]

/-- Witness for `c3_java_wrapper_functions_only` at the two-function
program `def f(): pass` / `def g(): pass`. -/
theorem c3_java_wrapper_functions_only_witness :
    (∀ n ∈ ["f", "g"], ('\n' : Char) ∉ n.data)
    ∧ (translate "java" (mkPassFnProg ["f", "g"]) initSt).1
      = "public class MeroTranslated \x7b\npublic static void f() \x7b\npublic static void g() \x7b\n\n    public static void main(String[] args) \x7b\n        ;\n        ;\n    \x7d\n\x7d" := by
  refine ⟨by decide, ?_⟩
  rw [c3_java_wrapper_functions_only ["f", "g"] (by decide)]
  decide

/-- C4 counterexample: a class whose body is empty after filtering (its only
statement is an import, which translates to `""`) emits an
indentation-only line inside the braces — an empty block with no no-op
construct — because `translate_class` (unlike `translate_function`) never
patches an empty body. -/
theorem c4_empty_class_body_counterexample :
    (translate_statement "javascript" (.classDef "C" (.cons .importStmt .nil)) initSt).1
      = "class C \x7b\n        \n\x7d" := by decide

/-- C4 amended: over every registered profile: only `translate_function`
patches an empty body, and with the no-op keyword `pass` for python/ruby
or the fixed token `mero_empty` — never a semicolon — for all the rest;
empty *class* and *if* bodies always emit an indentation-only blank line,
i.e. an empty block with no no-op construct.  The first conjunct pins the
three expectation tables to the full registered catalog, the rest check
the emitted text of every profile against them. -/
theorem c4_empty_body_emission :
    (emptyFnExpected.map Prod.fst = registered_langs
      ∧ emptyClassExpected.map Prod.fst = registered_langs
      ∧ emptyIfExpected.map Prod.fst = registered_langs)
    ∧ (emptyFnExpected.all (fun p =>
        (translate_statement p.1 (.functionDef "f" [] (.cons .importStmt .nil)) initSt).1
          == p.2)) = true
    ∧ (emptyClassExpected.all (fun p =>
        (translate_statement p.1 (.classDef "C" (.cons .importStmt .nil)) initSt).1
          == p.2)) = true
    ∧ (emptyIfExpected.all (fun p =>
        (translate_statement p.1 (.ifStmt (.name "x") (.cons .importStmt .nil) .nil) initSt).1
          == p.2)) = true :=
  ⟨⟨by decide, by decide, by decide⟩, by decide, by decide, by decide⟩




/-- C5 counterexample: the variant/profile pair `Pass` × ruby emits the
empty string (src/tr/core.py:298 returns `""`), so not every pair yields
non-empty text. -/
theorem c5_pass_ruby_empty :
    (translate_statement "ruby" .passStmt initSt).1 = "" := rfl

/-- C5 amended: over the whole registered catalog, every statement and
expression variant emits non-empty text on representative nodes — except
the single pair `Pass` × ruby, which emits `""` (and is dropped by body
filtering).  Dispatch is total (every variant has an arm, none can fail). -/
theorem c5_emission_nonempty_except_pass_ruby :
    (registered_langs.all (fun l => representative_stmts.all (fun s =>
        (translate_statement l s initSt).1 != ""))) = true
    ∧ (registered_langs.all (fun l => representative_exprs.all (fun e =>
        translate_expr l e != ""))) = true
    ∧ (registered_langs.all (fun l =>
        (l == "ruby") || ((translate_statement l .passStmt initSt).1 != ""))) = true
    ∧ (translate_statement "ruby" .passStmt initSt).1 = "" :=
  ⟨by decide, by decide, by decide, rfl⟩

/-- C6: for every target profile, an expression node outside the recognized
variant set is emitted as the fixed placeholder token `"mero_expr"`; the
emitter is a total function, so no such node can raise. -/
theorem c6_unknown_expr_placeholder (lang : String) :
    translate_expr lang Expr.unknown = "mero_expr" := rfl

/-- C7: whole-program emission is deterministic across calls on one
instance: after a first `translate` call (started from the fresh-instance
state) mutates `self.variables`, a second call on the same tree and target
from the leftover state returns byte-identical text.  (Calls on fresh
instances are literally the same value, and the leftover indent level is
`0` by `translate_ind_eq` while the leftover variable set is never read.) -/
theorem c7_emit_twice_identical (lang : String) (tree : StmtList) :
    (translate lang tree ((translate lang tree initSt).2)).1
      = (translate lang tree initSt).1 := by
  apply translate_out_congr
  rw [translate_ind_eq]

/-- C8 counterexample: in the php profile an addition of two *integer*
literals — no string-literal operand anywhere — is emitted with the
concatenation operator `.`, not with the arithmetic `+`: the
string-concatenation detection makes no observable difference because
`translate_operator` maps `Add` to `"."` for php unconditionally
(src/tr/core.py:529-531). -/
theorem c8_php_plain_add_uses_concat_op :
    translate_expr "php" (.binop (.constant (.intV 1)) .add (.constant (.intV 2)))
      = "1 . 2" := by decide

/-- C8 amended: the operator emitted for an `Add` node depends only on the
profile, never on the operands: php spells every addition `.` and every
other profile spells every addition `+`, string literals or not. -/
theorem c8_add_operator_depends_only_on_profile (lang : String) (l r : Expr) :
    translate_expr lang (.binop l .add r)
      = translate_expr lang l ++ (if lang = "php" then " . " else " + ")
        ++ translate_expr lang r := by
  by_cases hp : lang = "php" <;>
    simp [translate_expr, translate_operator, hp, String.append_assoc]

/-- C9 counterexample: the declared-variable set is *not* block-scoped: it
is never saved or restored around block recursion, so after emitting a
function whose body assigns `x`, the instance's set has grown from `∅` to
`{x}` although the block exited. -/
theorem c9_vars_not_restored :
    ((translate_statement "javascript"
        (.functionDef "f" [] (.cons (.assign (.name "x") (.constant (.intV 5))) .nil))
        initSt).2).vars = ["x"] := by decide

/-- C9 amended: of the two pieces of emitter state, only the indentation
depth is restored on block exit — every statement (function, class, if,
for, while and the rest) returns with `indent_level` exactly as found.
The declared-variable set accumulates for the life of the instance. -/
theorem c9_indent_depth_restored (lang : String) (s : Stmt) (st : St) :
    ((translate_statement lang s st).2).ind = st.ind :=
  translate_statement_ind_eq lang s st

/-- C10: for every target profile, `translate_operator` rewrites each
binary operator outside `{+,-,*,/,%,**,//}` to `"+"` and
`translate_compare_op` rewrites each comparison operator outside
`{==,!=,<,<=,>,>=}` (membership, identity, and their negations) to
`"=="` — a silent rewrite, not a placeholder or a rejection. -/
theorem c10_unrecognized_ops_silently_rewritten (lang : String) :
    (translate_operator lang .matMult = "+"
      ∧ translate_operator lang .lshift = "+"
      ∧ translate_operator lang .rshift = "+"
      ∧ translate_operator lang .bitOr = "+"
      ∧ translate_operator lang .bitXor = "+"
      ∧ translate_operator lang .bitAnd = "+")
    ∧ (translate_compare_op lang .isOp = "=="
      ∧ translate_compare_op lang .isNotOp = "=="
      ∧ translate_compare_op lang .inOp = "=="
      ∧ translate_compare_op lang .notInOp = "==") :=
  ⟨⟨rfl, rfl, rfl, rfl, rfl, rfl⟩, rfl, rfl, rfl, rfl⟩

end Tr
